import Mathlib

/-!
Shallow embedding of the job-application tracking backend
(FastAPI + SQLAlchemy, files under backend/app/) and proofs about its
two pieces of business logic: the communication-driven application
status engine (backend/app/api/communications.py) and the resume
master/version lineage manager (backend/app/api/resumes.py together
with backend/app/services/template_engine.py and
backend/app/services/latex_to_pdf.py).

Modelling conventions:
* a database table is a `List` of row structures; SQLAlchemy
  `query(...).filter(...).first()` is `List.find?`, and mutating the
  row returned by `.first()` followed by `commit` is `updateFirst`;
* autoincrement primary keys are modelled by a `nextId` counter in the
  store;
* timestamps (`datetime.now()`) are `Nat` values passed in explicitly;
* JSON documents are association lists of string keys to atomic values;
* `bytes` is `List Nat`;
* outbound external calls (OpenAI blending, PDF compilation services,
  PDF-to-LaTeX conversion) are oracles passed as parameters: their
  result (or the fact that they raised) is an explicit input;
* Python truthiness of `Optional[bytes]` / `Optional[str]` / dicts
  (`if not x:`) is made explicit by the `...Truthy` helpers.
-/

namespace JobTracker

/-- Application status, the four values used by `applications.status`
(`Applied | Interview | Offer | Rejected`, models.py line 16). -/
inductive Status where
  | applied
  | interview
  | offer
  | rejected
deriving DecidableEq, Repr

/-- Communication type (`Interview Invite | Rejection | Offer | Note |
Follow-up`, models.py line 56). -/
inductive CommType where
  | interviewInvite
  | rejection
  | offer
  | note
  | followUp
deriving DecidableEq, Repr

/-- The `COMMUNICATION_TO_STATUS` dict of communications.py: `.get` on a
missing key returns `None`, hence `Option Status`. -/
def COMMUNICATION_TO_STATUS : CommType → Option Status
  | .interviewInvite => some .interview
  | .rejection => some .rejected
  | .offer => some .offer
  | .note => none
  | .followUp => none

/-- The `status_priority` dict inside `update_application_status`. -/
def status_priority : Status → Nat
  | .applied => 1
  | .interview => 2
  | .offer => 3
  | .rejected => 0

/-- One row of the `applications` table (the fields the status engine
can observe or modify, plus representative data fields). -/
structure Application where
  id : Nat
  company_name : String
  role_title : String
  status : Status
  notes : Option String
  resume_id : Option Nat
  updated_at : Nat
deriving DecidableEq, Repr

/-- One row of the `communications` table. -/
structure Communication where
  id : Nat
  application_id : Nat
  type : CommType
  message : Option String
  sender_name : Option String
  sender_email : Option String
  response_date : Option Nat
  timestamp : Nat
deriving DecidableEq, Repr

/-- The applications-side database (applications + communications live
in the same store, database.py). -/
structure AppState where
  applications : List Application
  communications : List Communication
deriving DecidableEq, Repr

/-- Mutate the first row matching `p` (SQLAlchemy: fetch with
`.first()`, assign to its attributes, `commit`). -/
def updateFirst (p : α → Bool) (f : α → α) : List α → List α
  | [] => []
  | a :: l => if p a then f a :: l else a :: updateFirst p f l

/-- Remove the first row matching `p` (`db.delete(row)` on the row
returned by `.first()`). -/
def eraseFirst (p : α → Bool) : List α → List α
  | [] => []
  | a :: l => if p a then l else a :: eraseFirst p l

/-- `update_application_status` (communications.py lines 28-46):
look up the application, map the communication type to a target status,
and apply it only on a rejection or a strict rank increase, bumping
`updated_at`. -/
def update_application_status (application_id : Nat)
    (communication_type : CommType) (now : Nat)
    (apps : List Application) : List Application :=
  match apps.find? (fun a => a.id == application_id) with
  | none => apps
  | some application =>
    match COMMUNICATION_TO_STATUS communication_type with
    | none => apps
    | some new_status =>
      let current_priority := status_priority application.status
      let new_priority := status_priority new_status
      if new_status = .rejected ∨ new_priority > current_priority then
        updateFirst (fun a => a.id == application_id)
          (fun a => { a with status := new_status, updated_at := now }) apps
      else apps

/-- The `CommunicationCreate` request schema (schemas.py): no
`timestamp` field, it is set server-side. -/
structure CommunicationCreate where
  application_id : Nat
  type : CommType
  message : Option String
  sender_name : Option String
  sender_email : Option String
  response_date : Option Nat
deriving DecidableEq, Repr

/-- `create_communication` (communications.py lines 91-117): 404 when
the application does not exist (nothing written), otherwise insert the
row (timestamp defaults to `response_date` else now), then run
`update_application_status`, and answer 201. Errors return the store
unchanged: the `raise` happens before any write. -/
def create_communication (communication : CommunicationCreate)
    (newId now : Nat) (s : AppState) :
    AppState × Except Nat (Nat × Communication) :=
  match s.applications.find? (fun a => a.id == communication.application_id) with
  | none => (s, .error 404)
  | some _ =>
    let ts : Nat :=
      match communication.response_date with
      | some d => d
      | none => now
    let db_communication : Communication :=
      { id := newId
        application_id := communication.application_id
        type := communication.type
        message := communication.message
        sender_name := communication.sender_name
        sender_email := communication.sender_email
        response_date := communication.response_date
        timestamp := ts }
    let s1 : AppState :=
      { s with communications := s.communications ++ [db_communication] }
    let s2 : AppState :=
      { s1 with applications :=
          (update_application_status communication.application_id
            communication.type now s1.applications) }
    (s2, .ok (201, db_communication))

/-- The `CommunicationUpdate` request schema: every field optional; a
field absent from the payload (pydantic `exclude_unset`) is `none` in
the outer `Option`. -/
structure CommunicationUpdate where
  type : Option CommType
  message : Option (Option String)
  sender_name : Option (Option String)
  sender_email : Option (Option String)
  response_date : Option (Option Nat)
deriving DecidableEq, Repr

/-- The `setattr` loop of `update_communication`: apply every field
present in the payload. -/
def applyCommunicationUpdate (u : CommunicationUpdate)
    (c : Communication) : Communication :=
  let c1 := match u.type with
    | some t => { c with type := t }
    | none => c
  let c2 := match u.message with
    | some m => { c1 with message := m }
    | none => c1
  let c3 := match u.sender_name with
    | some v => { c2 with sender_name := v }
    | none => c2
  let c4 := match u.sender_email with
    | some v => { c3 with sender_email := v }
    | none => c3
  match u.response_date with
  | some v => { c4 with response_date := v }
  | none => c4

/-- `update_communication` (communications.py lines 120-142): 404 when
absent; otherwise apply the payload to the row and, only when the
payload contains `type`, re-run `update_application_status` with the
row's (new) type against the current application state. -/
def update_communication (communication_id : Nat)
    (communication_update : CommunicationUpdate) (now : Nat)
    (s : AppState) : AppState × Except Nat Communication :=
  match s.communications.find? (fun c => c.id == communication_id) with
  | none => (s, .error 404)
  | some db_communication =>
    let updated := applyCommunicationUpdate communication_update db_communication
    let s1 : AppState :=
      { s with communications :=
          (updateFirst (fun c => c.id == communication_id)
            (applyCommunicationUpdate communication_update) s.communications) }
    if communication_update.type.isSome then
      ({ s1 with applications :=
          (update_application_status updated.application_id updated.type now
            s1.applications) }, .ok updated)
    else
      (s1, .ok updated)

/-- `delete_communication` (communications.py lines 145-154): 404 when
absent; otherwise delete the row and nothing else — no call to
`update_application_status` anywhere on this path. -/
def delete_communication (communication_id : Nat) (s : AppState) :
    AppState × Except Nat Unit :=
  match s.communications.find? (fun c => c.id == communication_id) with
  | none => (s, .error 404)
  | some _ =>
    ({ s with communications :=
        (eraseFirst (fun c => c.id == communication_id) s.communications) },
     .ok ())

/-! ### Resume store (backend/app/api/resumes.py) -/

/-- Atomic JSON value: enough structure for the documents the resume
routes build (`minimal_content`, version-history entries). -/
inductive JsonVal where
  | str (s : String)
  | nat (n : Nat)
  | emptyList
  | emptyObj
deriving DecidableEq, Repr

/-- A JSON document (`Dict[str, Any]`) as an association list. -/
abbrev Content := List (String × JsonVal)

/-- `bytes`. -/
abbrev Bytes := List Nat

/-- One `version_history` element: `{timestamp, content}`. -/
structure VersionEntry where
  timestamp : Nat
  content : Content
deriving DecidableEq, Repr

/-- One row of the `resumes` table (models.py lines 30-47). -/
structure Resume where
  id : Nat
  name : String
  is_master : Bool
  master_resume_id : Option Nat
  content : Content
  version_history : List VersionEntry
  file_data : Option Bytes
  file_type : Option String
  latex_content : Option String
  updated_at : Nat
deriving DecidableEq, Repr

/-- The resumes database; `nextId` models the autoincrement primary
key. -/
structure ResumeStore where
  rows : List Resume
  nextId : Nat
deriving DecidableEq, Repr

/-- Python truthiness of an `Optional[bytes]` (`None` and `b""` are
falsy). -/
def bytesTruthy : Option Bytes → Bool
  | none => false
  | some b => !b.isEmpty

/-- Python truthiness of an `Optional[str]` (`None` and `""` are
falsy). -/
def strTruthy : Option String → Bool
  | none => false
  | some s => !(s == "")

/-- Python truthiness of a JSON dict (`{}` is falsy). -/
def contentTruthy (c : Content) : Bool := !c.isEmpty

/-- `name or fallback` for an optional string. -/
def pyOrStr (a : Option String) (fallback : String) : String :=
  match a with
  | some s => if s == "" then fallback else s
  | none => fallback

/-- The `ResumeCreate` request schema (schemas.py lines 45-54). -/
structure ResumeCreate where
  name : String
  is_master : Bool
  master_resume_id : Option Nat
  content : Content
  version_history : List VersionEntry
deriving DecidableEq, Repr

/-- The `ResumeUpdate` request schema (schemas.py lines 57-59): only
`name` and `content` are updatable through PATCH /resumes/{id}. -/
structure ResumeUpdate where
  name : Option String
  content : Option Content
deriving DecidableEq, Repr

/-- Clear the flag on the first resume with `is_master = True`
(`db.query(Resume).filter(Resume.is_master == True).first()` followed
by `existing_master.is_master = False`). -/
def clearFirstMaster (rows : List Resume) : List Resume :=
  updateFirst (fun r => r.is_master)
    (fun r => { r with is_master := false }) rows

/-- `create_resume` (resumes.py lines 24-39): when the payload sets
`is_master`, first clear any existing master, then insert the row. -/
def create_resume (resume : ResumeCreate) (now : Nat) (s : ResumeStore) :
    ResumeStore × Resume :=
  let rows := if resume.is_master then clearFirstMaster s.rows else s.rows
  let db_resume : Resume :=
    { id := s.nextId
      name := resume.name
      is_master := resume.is_master
      master_resume_id := resume.master_resume_id
      content := resume.content
      version_history := resume.version_history
      file_data := none
      file_type := none
      latex_content := none
      updated_at := now }
  ({ rows := rows ++ [db_resume], nextId := s.nextId + 1 }, db_resume)

/-- The upload format allow-list (resumes.py lines 50-57). -/
def valid_types : List String :=
  ["application/pdf",
   "application/vnd.openxmlformats-officedocument.wordprocessingml.document",
   "application/x-tex",
   "application/x-latex",
   "text/x-tex",
   "text/plain"]

/-- The `minimal_content` placeholder document built by
`upload_resume`. -/
def minimal_content : Content :=
  [("name", .str ""), ("email", .str ""), ("phone", .str ""),
   ("summary", .str ""), ("experience", .emptyList),
   ("skills", .emptyList), ("education", .emptyObj)]

/-- The filename stripping in `upload_resume`:
`filename.replace(".pdf", "").replace(".docx", "").replace(".doc", "")`. -/
def stripExt (filename : String) : String :=
  ((filename.replace ".pdf" "").replace ".docx" "").replace ".doc" ""

/-- `save_latex_to_resume` (services/pdf_to_latex.py lines 215-229):
store the LaTeX text on the row and bump `updated_at`; no other field
is touched. -/
def save_latex_to_resume (resume : Resume) (latex_content : String)
    (now : Nat) : Resume :=
  { resume with latex_content := some latex_content, updated_at := now }

/-- `upload_resume` (resumes.py lines 42-112). 400 on a type outside
the allow-list or a body over 10 MB (nothing written); otherwise clear
the master flag if requested, insert the row with the uploaded bytes
and declared MIME type, and — best-effort — attach the PDF-to-LaTeX
conversion result. `latexResult` is the oracle for
`convert_pdf_to_latex` (`none` covers both a `None` return and a raised
exception, which the route swallows). -/
def upload_resume (file_content : Bytes) (content_type : String)
    (name? : Option String) (filename : Option String) (is_master : Bool)
    (latexResult : Option String) (now : Nat) (s : ResumeStore) :
    ResumeStore × Except Nat Resume :=
  if content_type ∉ valid_types then (s, .error 400)
  else if file_content.length > 10 * 1024 * 1024 then (s, .error 400)
  else
    let resume_name :=
      if strTruthy filename then
        pyOrStr name? (stripExt (filename.getD ""))
      else "Uploaded Resume"
    let rows := if is_master then clearFirstMaster s.rows else s.rows
    let db_resume : Resume :=
      { id := s.nextId
        name := resume_name
        is_master := is_master
        master_resume_id := none
        content := minimal_content
        version_history :=
          [⟨now, [("summary", .str ("File uploaded: " ++ filename.getD "None"))]⟩]
        file_data := some file_content
        file_type := some content_type
        latex_content := none
        updated_at := now }
    let db_resume :=
      if content_type == "application/pdf" && !file_content.isEmpty then
        match latexResult with
        | some latex_content =>
          if latex_content == "" then db_resume
          else save_latex_to_resume db_resume latex_content now
        | none => db_resume
      else db_resume
    ({ rows := rows ++ [db_resume], nextId := s.nextId + 1 }, .ok db_resume)

/-- `get_resume_file` (resumes.py lines 117-134): 404 when the resume
is absent or its `file_data` is falsy (`None` or empty); otherwise the
stored bytes with `file_type or "application/pdf"` as media type. -/
def get_resume_file (resume_id : Nat) (s : ResumeStore) :
    Except Nat (Bytes × String) :=
  match s.rows.find? (fun r => r.id == resume_id) with
  | none => .error 404
  | some resume =>
    if !bytesTruthy resume.file_data then .error 404
    else
      let content_type :=
        match resume.file_type with
        | some t => if t == "" then "application/pdf" else t
        | none => "application/pdf"
      .ok (resume.file_data.getD [], content_type)

/-- `set_master_resume` (resumes.py lines 161-177): 404 when absent;
otherwise clear the flag on the first other master and set it on the
target, bumping its `updated_at`. -/
def set_master_resume (resume_id now : Nat) (s : ResumeStore) :
    ResumeStore × Except Nat Unit :=
  match s.rows.find? (fun r => r.id == resume_id) with
  | none => (s, .error 404)
  | some _ =>
    let rows :=
      updateFirst (fun r => r.is_master && r.id != resume_id)
        (fun r => { r with is_master := false }) s.rows
    let rows :=
      updateFirst (fun r => r.id == resume_id)
        (fun r => { r with is_master := true, updated_at := now }) rows
    ({ s with rows := rows }, .ok ())

/-- `unset_master_resume` (resumes.py lines 180-191): clear the flag
unconditionally on the target. -/
def unset_master_resume (resume_id now : Nat) (s : ResumeStore) :
    ResumeStore × Except Nat Unit :=
  match s.rows.find? (fun r => r.id == resume_id) with
  | none => (s, .error 404)
  | some _ =>
    ({ s with rows :=
        (updateFirst (fun r => r.id == resume_id)
          (fun r => { r with is_master := false, updated_at := now }) s.rows) },
     .ok ())

/-- The in-memory pre-image append `update_resume` executes before the
payload is applied (resumes.py lines 216-220); the spec calls this
`recordVersion`. The ORM never persists its effect — see
`update_resume` — so it appears here only to state what the route
builds and then loses. -/
def recordVersion (r : Resume) (now : Nat) : Resume :=
  if contentTruthy r.content then
    { r with version_history := r.version_history ++ [⟨now, r.content⟩] }
  else r

/-- The `setattr` loop of `update_resume` applying the payload. -/
def applyResumeUpdate (u : ResumeUpdate) (r : Resume) : Resume :=
  let r1 := match u.name with
    | some n => { r with name := n }
    | none => r
  match u.content with
  | some c => { r1 with content := c }
  | none => r1

/-- `update_resume` (resumes.py lines 205-229) as the program actually
persists it: 404 when absent; otherwise apply the payload and bump
`updated_at`. The route also executes the in-place pre-image append
`recordVersion` on `db_resume.version_history` (lines 216-220), but
`version_history` is a plain `Column(JSON, default=list)` (models.py
line 39) with no `MutableList` wrapper and no `flag_modified` call
anywhere in the repository, so SQLAlchemy never marks the attribute
dirty: the append is dropped at `db.commit()` and the following
`db.refresh(db_resume)` reloads the stale list. The persisted and
returned row therefore keep the original `version_history`. -/
def update_resume (resume_id : Nat) (resume_update : ResumeUpdate)
    (now : Nat) (s : ResumeStore) : ResumeStore × Except Nat Resume :=
  match s.rows.find? (fun r => r.id == resume_id) with
  | none => (s, .error 404)
  | some db_resume =>
    let step : Resume → Resume := fun r =>
      { applyResumeUpdate resume_update r with updated_at := now }
    ({ s with rows :=
        (updateFirst (fun r => r.id == resume_id) step s.rows) },
     .ok (step db_resume))

/-! ### Template engine and LaTeX compilation services -/

/-- `get_available_templates` (services/template_engine.py lines
270-276): template ids with display names. -/
def get_available_templates : List (String × String) :=
  [("template-1", "Modern Deedy (OpenFont)"),
   ("template-2", "AltaCV (Sidebar)"),
   ("template-3", "Jake's Resume (Classic)")]

/-- `string.digits`. -/
def string_digits : String := "0123456789"

/-- `generate_random_suffix` (services/template_engine.py lines 63-65):
`random.choices(string.digits, k=length)` joined; the random draws are
an explicit oracle of indices into `string.digits`. -/
def generate_random_suffix (length : Nat) (draws : Nat → Fin 10) : String :=
  String.mk ((List.range length).map
    (fun i => string_digits.toList.getD (draws i).val '0'))

/-- `apply_template` (resumes.py lines 296-416). External calls are
oracles: `blendResult` is what `blend_resume_with_template` returns
(it catches its own exceptions and returns `None`), `compileResult`
what `compile_latex_to_pdf` returns. 404 when the resume is absent,
400 when it has no LaTeX content or the template id is invalid, 500
when blending fails — all before any write. On success a new row is
inserted: not master, linked to the original, content copied, name
suffixed with three random digits, `file_data` the compiled PDF or
`None` (compilation failure is non-fatal). -/
def apply_template (resume_id : Nat) (template_id : String)
    (blendResult : Option String) (compileResult : Option Bytes)
    (draws : Nat → Fin 10) (now : Nat) (s : ResumeStore) :
    ResumeStore × Except Nat Resume :=
  match s.rows.find? (fun r => r.id == resume_id) with
  | none => (s, .error 404)
  | some original_resume =>
    if !strTruthy original_resume.latex_content then (s, .error 400)
    else if template_id ∉ get_available_templates.map Prod.fst then
      (s, .error 400)
    else
      match blendResult with
      | none => (s, .error 500)
      | some blended_latex =>
        if blended_latex == "" then (s, .error 500)
        else
          let pdf_bytes : Option Bytes :=
            match compileResult with
            | some b => if b.isEmpty then none else some b
            | none => none
          let random_suffix := generate_random_suffix 3 draws
          let new_name := original_resume.name ++ "-" ++ random_suffix
          let new_resume : Resume :=
            { id := s.nextId
              name := new_name
              is_master := false
              master_resume_id := some original_resume.id
              content := original_resume.content
              version_history :=
                [⟨now, [("summary", .str ("Template applied: " ++ template_id)),
                        ("original_resume_id", .nat original_resume.id),
                        ("template_id", .str template_id)]⟩]
              file_data := pdf_bytes
              file_type := if pdf_bytes.isSome then some "application/pdf" else none
              latex_content := some blended_latex
              updated_at := now }
          ({ rows := s.rows ++ [new_resume], nextId := s.nextId + 1 },
           .ok new_resume)

/-- The two external compilation services of
services/latex_to_pdf.py, in the order of its `services` list. -/
inductive ServiceName where
  | latexonline
  | ytotech
deriving DecidableEq, Repr

/-- What one service call did: raised, or returned an
`Optional[bytes]`. -/
inductive ServiceOutcome where
  | raises
  | returns (result : Option Bytes)
deriving DecidableEq, Repr

/-- The fixed priority order (`services = [_compile_with_latexonline,
_compile_with_ytotech]`). -/
def services : List ServiceName := [.latexonline, .ytotech]

/-- The bytes a single service outcome contributes: `None` when it
raised, returned `None`, or returned falsy (empty) bytes — the loop
tests `if result:`. -/
def serviceSuccess : ServiceOutcome → Option Bytes
  | .raises => none
  | .returns none => none
  | .returns (some b) => if b.isEmpty then none else some b

/-- The `for service in services` loop of `compile_latex_to_pdf`:
each service is called once, in order; an exception is caught and the
loop continues; a truthy result is returned immediately. -/
def tryServices (outcome : ServiceName → ServiceOutcome) :
    List ServiceName → Option Bytes
  | [] => none
  | svc :: rest =>
    match outcome svc with
    | .raises => tryServices outcome rest
    | .returns result =>
      match result with
      | some b => if b.isEmpty then tryServices outcome rest else some b
      | none => tryServices outcome rest

/-- `compile_latex_to_pdf` (services/latex_to_pdf.py lines 37-85):
run the loop over the fixed service list; when it falls through, return
`None`. The function itself never raises: every service call sits in a
`try/except` that continues the loop. -/
def compile_latex_to_pdf (outcome : ServiceName → ServiceOutcome) :
    Option Bytes :=
  tryServices outcome services

/-! ### Resume operation sequences -/

/-- The write operations of the resumes API that the master invariant
ranges over: create, upload, set-master, unset-master, update. -/
inductive ResumeOp where
  | create (resume : ResumeCreate) (now : Nat)
  | upload (file_content : Bytes) (content_type : String)
      (name? : Option String) (filename : Option String)
      (is_master : Bool) (latexResult : Option String) (now : Nat)
  | setMaster (resume_id now : Nat)
  | unsetMaster (resume_id now : Nat)
  | update (resume_id : Nat) (resume_update : ResumeUpdate) (now : Nat)
deriving Repr

/-- Run one operation against the store; a request that errors (404 or
400) leaves the store as it was. -/
def applyOp (s : ResumeStore) : ResumeOp → ResumeStore
  | .create r now => (create_resume r now s).1
  | .upload fc ct n? fn im lr now => (upload_resume fc ct n? fn im lr now s).1
  | .setMaster rid now => (set_master_resume rid now s).1
  | .unsetMaster rid now => (unset_master_resume rid now s).1
  | .update rid u now => (update_resume rid u now s).1

/-- Run a sequence of operations. -/
def runOps (s : ResumeStore) (ops : List ResumeOp) : ResumeStore :=
  ops.foldl applyOp s

/-- Number of rows with `is_master = true`. -/
def masterCount (rows : List Resume) : Nat :=
  rows.countP (fun r => r.is_master)

/-- Well-formedness the relational store guarantees: primary keys are
distinct and below the autoincrement counter. -/
abbrev StoreWF (s : ResumeStore) : Prop :=
  (s.rows.map (fun r => r.id)).Nodup ∧
  ∀ i ∈ s.rows.map (fun r => r.id), i < s.nextId

/-! ### Helper lemmas about `updateFirst` / `eraseFirst` -/

theorem updateFirst_of_neg {p : α → Bool} {f : α → α} {l : List α}
    (h : ∀ a ∈ l, p a = false) : updateFirst p f l = l := by
  induction l with
  | nil => rfl
  | cons a l ih =>
    have ha := h a (List.mem_cons_self a l)
    simp only [updateFirst, ha, Bool.false_eq_true, if_false]
    rw [ih (fun x hx => h x (List.mem_cons_of_mem a hx))]

theorem map_updateFirst {p : α → Bool} {f : α → α} (g : α → β) {l : List α}
    (h : ∀ a, g (f a) = g a) : (updateFirst p f l).map g = l.map g := by
  induction l with
  | nil => rfl
  | cons a l ih =>
    cases hp : p a
    · simp only [updateFirst, hp, Bool.false_eq_true, if_false, List.map_cons, ih]
    · simp only [updateFirst, hp, if_true, List.map_cons, h]

theorem find?_updateFirst {p : α → Bool} {f : α → α} {l : List α} {a : α}
    (hfind : l.find? p = some a) (hp : p (f a) = true) :
    (updateFirst p f l).find? p = some (f a) := by
  induction l with
  | nil => simp [List.find?] at hfind
  | cons x l ih =>
    cases hx : p x
    · rw [List.find?_cons_of_neg _ (by simp [hx])] at hfind
      simp only [updateFirst, hx, Bool.false_eq_true, if_false]
      rw [List.find?_cons_of_neg _ (by simp [hx])]
      exact ih hfind
    · rw [List.find?_cons_of_pos _ (by simp [hx])] at hfind
      injection hfind with h
      subst h
      simp only [updateFirst, hx, if_true]
      rw [List.find?_cons_of_pos _ (by simp [hp])]

theorem countP_updateFirst {p : α → Bool} {f : α → α} (q : α → Bool)
    {l : List α} (h : ∀ a, q (f a) = q a) :
    (updateFirst p f l).countP q = l.countP q := by
  induction l with
  | nil => rfl
  | cons a l ih =>
    cases hp : p a
    · simp only [updateFirst, hp, Bool.false_eq_true, if_false,
        List.countP_cons, ih]
    · simp only [updateFirst, hp, if_true, List.countP_cons, h]

theorem length_eraseFirst_of_find? {p : α → Bool} {l : List α} {a : α}
    (hfind : l.find? p = some a) :
    (eraseFirst p l).length + 1 = l.length := by
  induction l with
  | nil => simp [List.find?] at hfind
  | cons x l ih =>
    cases hx : p x
    · rw [List.find?_cons_of_neg _ (by simp [hx])] at hfind
      simp only [eraseFirst, hx, Bool.false_eq_true, if_false, List.length_cons]
      rw [← ih hfind]
    · simp only [eraseFirst, hx, if_true, List.length_cons]

theorem mem_of_mem_eraseFirst {p : α → Bool} {l : List α} {x : α}
    (hx : x ∈ eraseFirst p l) : x ∈ l := by
  induction l with
  | nil => simp [eraseFirst] at hx
  | cons a l ih =>
    cases hp : p a
    · simp only [eraseFirst, hp, Bool.false_eq_true, if_false,
        List.mem_cons] at hx
      rcases hx with h | h
      · exact h ▸ List.mem_cons_self a l
      · exact List.mem_cons_of_mem a (ih h)
    · simp only [eraseFirst, hp, if_true] at hx
      exact List.mem_cons_of_mem a hx

/-! ### Counting masters -/

theorem masterCount_nil : masterCount ([] : List Resume) = 0 := rfl

theorem masterCount_cons (r : Resume) (l : List Resume) :
    masterCount (r :: l) = masterCount l + (if r.is_master then 1 else 0) := by
  simp [masterCount, List.countP_cons]

theorem masterCount_append (l1 l2 : List Resume) :
    masterCount (l1 ++ l2) = masterCount l1 + masterCount l2 :=
  List.countP_append _ _ _

theorem masterCount_clearFirstMaster {l : List Resume}
    (h : masterCount l ≤ 1) : masterCount (clearFirstMaster l) = 0 := by
  induction l with
  | nil => rfl
  | cons r l ih =>
    rw [masterCount_cons] at h
    cases hm : r.is_master with
    | false =>
      rw [hm] at h
      simp only [Bool.false_eq_true, if_false, Nat.add_zero] at h
      have h0 := ih h
      simp only [clearFirstMaster, updateFirst, hm, Bool.false_eq_true, if_false]
      rw [masterCount_cons, hm]
      simp only [Bool.false_eq_true, if_false, Nat.add_zero]
      simpa [clearFirstMaster] using h0
    | true =>
      rw [hm] at h
      simp only [if_true] at h
      have h0 : masterCount l = 0 := by omega
      simp only [clearFirstMaster, updateFirst, hm, if_true]
      rw [masterCount_cons]
      simp [h0]

theorem masterCount_clear_le {p : Resume → Bool} {f : Resume → Resume}
    {l : List Resume} (hf : ∀ r, (f r).is_master = false) :
    masterCount (updateFirst p f l) ≤ masterCount l := by
  induction l with
  | nil => exact Nat.le_refl _
  | cons r l ih =>
    cases hp : p r with
    | false =>
      simp only [updateFirst, hp, Bool.false_eq_true, if_false]
      rw [masterCount_cons, masterCount_cons]
      omega
    | true =>
      simp only [updateFirst, hp, if_true]
      rw [masterCount_cons, masterCount_cons, hf]
      simp only [Bool.false_eq_true, if_false, Nat.add_zero]
      omega

theorem masterCount_setFlag_of_zero {l : List Resume} {tid now : Nat}
    (h0 : masterCount l = 0) (hmem : tid ∈ l.map (fun r => r.id)) :
    masterCount (updateFirst (fun r => r.id == tid)
      (fun r => { r with is_master := true, updated_at := now }) l) = 1 := by
  induction l with
  | nil => simp at hmem
  | cons r l ih =>
    rw [masterCount_cons] at h0
    have hm : r.is_master = false := by
      cases hm' : r.is_master with
      | false => rfl
      | true => rw [hm'] at h0; simp only [if_true] at h0; omega
    rw [hm] at h0
    simp only [Bool.false_eq_true, if_false, Nat.add_zero] at h0
    cases hid : (r.id == tid) with
    | false =>
      have hid' : r.id ≠ tid := by
        intro h
        rw [h] at hid
        simp at hid
      have hmem' : tid ∈ l.map (fun r => r.id) := by
        simp only [List.map_cons, List.mem_cons] at hmem
        rcases hmem with h | h
        · exact absurd h.symm hid'
        · exact h
      simp only [updateFirst, hid, Bool.false_eq_true, if_false]
      rw [masterCount_cons, hm]
      simp only [Bool.false_eq_true, if_false, Nat.add_zero]
      exact ih h0 hmem'
    | true =>
      simp only [updateFirst, hid, if_true]
      rw [masterCount_cons]
      simp [h0]

theorem masterCount_clearOther_eq_zero {l : List Resume} {tid : Nat}
    (h1 : masterCount l ≤ 1)
    (hno : ∀ r ∈ l, r.is_master = true → r.id ≠ tid) :
    masterCount (updateFirst (fun r => r.is_master && r.id != tid)
      (fun r => { r with is_master := false }) l) = 0 := by
  induction l with
  | nil => rfl
  | cons r l ih =>
    rw [masterCount_cons] at h1
    cases hm : r.is_master with
    | false =>
      rw [hm] at h1
      simp only [Bool.false_eq_true, if_false, Nat.add_zero] at h1
      have hp : (r.is_master && r.id != tid) = false := by simp [hm]
      have hno' : ∀ x ∈ l, x.is_master = true → x.id ≠ tid :=
        fun x hx => hno x (List.mem_cons_of_mem r hx)
      simp only [updateFirst, hp, Bool.false_eq_true, if_false]
      rw [masterCount_cons, hm]
      simp only [Bool.false_eq_true, if_false, Nat.add_zero]
      exact ih h1 hno'
    | true =>
      have hid : r.id ≠ tid := hno r (List.mem_cons_self r l) hm
      have hp : (r.is_master && r.id != tid) = true := by
        simp [hm, bne_iff_ne, hid]
      rw [hm] at h1
      simp only [if_true] at h1
      have hl0 : masterCount l = 0 := by omega
      simp only [updateFirst, hp, if_true]
      rw [masterCount_cons]
      simp [hl0]

theorem masterCount_setMaster (l : List Resume) (tid now : Nat)
    (hnd : (l.map (fun r => r.id)).Nodup)
    (h1 : masterCount l ≤ 1)
    (hmem : tid ∈ l.map (fun r => r.id)) :
    masterCount (updateFirst (fun r => r.id == tid)
      (fun r => { r with is_master := true, updated_at := now })
      (updateFirst (fun r => r.is_master && r.id != tid)
        (fun r => { r with is_master := false }) l)) = 1 := by
  induction l with
  | nil => simp at hmem
  | cons r l ih =>
    rw [List.map_cons, List.nodup_cons] at hnd
    obtain ⟨hrnotin, hndl⟩ := hnd
    rw [masterCount_cons] at h1
    cases hclr : (r.is_master && r.id != tid) with
    | false =>
      cases hid : (r.id == tid) with
      | false =>
        -- head untouched by both passes
        have hid' : r.id ≠ tid := by
          intro h
          rw [h] at hid
          simp at hid
        have hm : r.is_master = false := by
          cases hm' : r.is_master with
          | false => rfl
          | true =>
            rw [hm'] at hclr
            simp [bne_iff_ne, hid'] at hclr
        have hmem' : tid ∈ l.map (fun r => r.id) := by
          simp only [List.map_cons, List.mem_cons] at hmem
          rcases hmem with h | h
          · exact absurd h.symm hid'
          · exact h
        rw [hm] at h1
        simp only [Bool.false_eq_true, if_false, Nat.add_zero] at h1
        simp only [updateFirst, hclr, hid, Bool.false_eq_true, if_false]
        rw [masterCount_cons, hm]
        simp only [Bool.false_eq_true, if_false, Nat.add_zero]
        exact ih hndl h1 hmem'
      | true =>
        -- head is the target: kept by the clearing pass, flagged by the second
        have hrid : r.id = tid := by simpa using hid
        have hno : ∀ x ∈ l, x.is_master = true → x.id ≠ tid := by
          intro x hx _ heq
          exact hrnotin (hrid ▸ heq ▸ List.mem_map.mpr ⟨x, hx, rfl⟩)
        have h1' : masterCount l ≤ 1 := Nat.le_trans (Nat.le_add_right _ _) h1
        have hz := masterCount_clearOther_eq_zero h1' hno
        simp only [updateFirst, hclr, Bool.false_eq_true, if_false, hid, if_true]
        rw [masterCount_cons]
        simp [hz]
    | true =>
      -- head is a master with a different id: cleared by the first pass
      have hparts : r.is_master = true ∧ r.id ≠ tid := by simpa using hclr
      have hm : r.is_master = true := hparts.1
      have hid' : r.id ≠ tid := hparts.2
      have hmem' : tid ∈ l.map (fun r => r.id) := by
        simp only [List.map_cons, List.mem_cons] at hmem
        rcases hmem with h | h
        · exact absurd h.symm hid'
        · exact h
      rw [hm] at h1
      simp only [if_true] at h1
      have hl0 : masterCount l = 0 := by omega
      have hsid : (({ r with is_master := false } : Resume).id == tid) = false := by
        simp [hid']
      simp only [updateFirst, hclr, if_true, hsid, Bool.false_eq_true, if_false]
      rw [masterCount_cons]
      simp only [Bool.false_eq_true, if_false, Nat.add_zero]
      exact masterCount_setFlag_of_zero hl0 hmem'

/-! ### Field-preservation facts about the row transformers -/

theorem applyResumeUpdate_id (u : ResumeUpdate) (r : Resume) :
    (applyResumeUpdate u r).id = r.id := by
  unfold applyResumeUpdate
  cases u.name <;> cases u.content <;> rfl

theorem applyResumeUpdate_is_master (u : ResumeUpdate) (r : Resume) :
    (applyResumeUpdate u r).is_master = r.is_master := by
  unfold applyResumeUpdate
  cases u.name <;> cases u.content <;> rfl

theorem recordVersion_id (r : Resume) (now : Nat) :
    (recordVersion r now).id = r.id := by
  unfold recordVersion
  split <;> rfl

theorem recordVersion_is_master (r : Resume) (now : Nat) :
    (recordVersion r now).is_master = r.is_master := by
  unfold recordVersion
  split <;> rfl

theorem ids_clearFirstMaster (l : List Resume) :
    (clearFirstMaster l).map (fun r => r.id) = l.map (fun r => r.id) :=
  map_updateFirst _ (fun _ => rfl)

/-! ### Invariant preservation per operation -/

/-- Appending a freshly-numbered row after an optional master-clearing
pass keeps the store well-formed and the master count at most one. -/
theorem append_inv {s : ResumeStore} (hwf : StoreWF s)
    (h1 : masterCount s.rows ≤ 1) (im : Bool) (d : Resume)
    (hid : d.id = s.nextId) (hdm : d.is_master = im) :
    StoreWF (ResumeStore.mk
      ((if im then clearFirstMaster s.rows else s.rows) ++ [d])
      (s.nextId + 1)) ∧
    masterCount ((if im then clearFirstMaster s.rows else s.rows) ++ [d]) ≤ 1 := by
  obtain ⟨hnd, hlt⟩ := hwf
  have hids : (if im then clearFirstMaster s.rows else s.rows).map (fun x => x.id)
      = s.rows.map (fun x => x.id) := by
    cases im
    · rfl
    · simpa using ids_clearFirstMaster s.rows
  refine ⟨⟨?_, ?_⟩, ?_⟩
  · rw [List.map_append, hids]
    rw [List.nodup_append]
    refine ⟨hnd, List.nodup_singleton _, ?_⟩
    intro a ha hb
    simp only [List.map_cons, List.map_nil, List.mem_singleton] at hb
    subst hb
    rw [hid] at ha
    exact absurd (hlt _ ha) (Nat.lt_irrefl _)
  · intro i hi
    rw [List.map_append, hids] at hi
    simp only [List.mem_append, List.map_cons, List.map_nil,
      List.mem_singleton, hid] at hi
    rcases hi with h | h
    · exact Nat.lt_succ_of_lt (hlt _ h)
    · subst h
      exact Nat.lt_succ_self _
  · rw [masterCount_append, masterCount_cons, masterCount_nil, hdm]
    cases im
    · simpa using h1
    · simp [masterCount_clearFirstMaster h1]

theorem create_resume_inv {s : ResumeStore} {r : ResumeCreate} {now : Nat}
    (hwf : StoreWF s) (h1 : masterCount s.rows ≤ 1) :
    StoreWF (create_resume r now s).1 ∧
    masterCount (create_resume r now s).1.rows ≤ 1 := by
  unfold create_resume
  exact append_inv hwf h1 r.is_master _ rfl rfl

theorem upload_resume_inv {s : ResumeStore} {fc : Bytes} {ct : String}
    {n? fn : Option String} {im : Bool} {lr : Option String} {now : Nat}
    (hwf : StoreWF s) (h1 : masterCount s.rows ≤ 1) :
    StoreWF (upload_resume fc ct n? fn im lr now s).1 ∧
    masterCount (upload_resume fc ct n? fn im lr now s).1.rows ≤ 1 := by
  unfold upload_resume
  split
  · exact ⟨hwf, h1⟩
  split
  · exact ⟨hwf, h1⟩
  refine append_inv hwf h1 im _ ?_ ?_
  · split
    · cases lr with
      | none => rfl
      | some latex =>
        by_cases hl : latex = ""
        · simp [hl]
        · simp [hl, save_latex_to_resume]
    · rfl
  · split
    · cases lr with
      | none => rfl
      | some latex =>
        by_cases hl : latex = ""
        · simp [hl]
        · simp [hl, save_latex_to_resume]
    · rfl

theorem set_master_resume_inv (s : ResumeStore) (rid now : Nat)
    (hwf : StoreWF s) (h1 : masterCount s.rows ≤ 1) :
    StoreWF (set_master_resume rid now s).1 ∧
    masterCount (set_master_resume rid now s).1.rows ≤ 1 ∧
    (rid ∈ s.rows.map (fun r => r.id) →
      masterCount (set_master_resume rid now s).1.rows = 1) ∧
    (set_master_resume rid now s).1.rows.map (fun r => r.id) =
      s.rows.map (fun r => r.id) ∧
    (set_master_resume rid now s).1.nextId = s.nextId := by
  obtain ⟨hnd, hlt⟩ := hwf
  unfold set_master_resume
  cases hfind : s.rows.find? (fun r => r.id == rid) with
  | none =>
    refine ⟨⟨hnd, hlt⟩, h1, ?_, rfl, rfl⟩
    intro hmem
    exfalso
    rcases List.mem_map.mp hmem with ⟨r, hr, hrid⟩
    have := List.find?_eq_none.mp hfind r hr
    simp [hrid] at this
  | some r =>
    have hmem : rid ∈ s.rows.map (fun r => r.id) := by
      have hr := List.mem_of_find?_eq_some hfind
      have hp := List.find?_some hfind
      exact List.mem_map.mpr ⟨r, hr, by simpa using hp⟩
    have hids : (updateFirst (fun x => x.id == rid)
        (fun x => { x with is_master := true, updated_at := now })
        (updateFirst (fun x => x.is_master && x.id != rid)
          (fun x => { x with is_master := false }) s.rows)).map (fun x => x.id)
        = s.rows.map (fun x => x.id) :=
      (map_updateFirst (p := fun x : Resume => x.id == rid)
        (f := fun x : Resume => { x with is_master := true, updated_at := now })
        (fun x => x.id) (fun _ => rfl)).trans
      (map_updateFirst (p := fun x : Resume => x.is_master && x.id != rid)
        (f := fun x : Resume => { x with is_master := false })
        (fun x => x.id) (fun _ => rfl))
    have hcount := masterCount_setMaster s.rows rid now hnd h1 hmem
    refine ⟨⟨?_, ?_⟩, ?_, ?_, ?_, rfl⟩
    · simpa [hids] using hnd
    · intro i hi
      rw [hids] at hi
      exact hlt i hi
    · simpa using Nat.le_of_eq hcount
    · intro _
      simpa using hcount
    · simpa using hids

theorem unset_master_resume_inv {s : ResumeStore} {rid now : Nat}
    (hwf : StoreWF s) (h1 : masterCount s.rows ≤ 1) :
    StoreWF (unset_master_resume rid now s).1 ∧
    masterCount (unset_master_resume rid now s).1.rows ≤ 1 := by
  obtain ⟨hnd, hlt⟩ := hwf
  unfold unset_master_resume
  cases hfind : s.rows.find? (fun r => r.id == rid) with
  | none => exact ⟨⟨hnd, hlt⟩, h1⟩
  | some r =>
    have hids : (updateFirst (fun x => x.id == rid)
        (fun x => { x with is_master := false, updated_at := now })
        s.rows).map (fun x => x.id) = s.rows.map (fun x => x.id) :=
      map_updateFirst
        (f := fun x : Resume => { x with is_master := false, updated_at := now })
        (fun x => x.id) (fun _ => rfl)
    refine ⟨⟨by simpa [hids] using hnd, ?_⟩, ?_⟩
    · intro i hi
      rw [hids] at hi
      exact hlt i hi
    · exact Nat.le_trans (masterCount_clear_le (fun _ => rfl)) h1

theorem update_resume_inv {s : ResumeStore} {rid : Nat} {u : ResumeUpdate}
    {now : Nat} (hwf : StoreWF s) (h1 : masterCount s.rows ≤ 1) :
    StoreWF (update_resume rid u now s).1 ∧
    masterCount (update_resume rid u now s).1.rows ≤ 1 := by
  obtain ⟨hnd, hlt⟩ := hwf
  unfold update_resume
  cases hfind : s.rows.find? (fun r => r.id == rid) with
  | none => exact ⟨⟨hnd, hlt⟩, h1⟩
  | some r =>
    have hstep_id : ∀ x : Resume,
        ({ applyResumeUpdate u x with
            updated_at := now } : Resume).id = x.id := by
      intro x
      show (applyResumeUpdate u x).id = x.id
      rw [applyResumeUpdate_id]
    have hstep_m : ∀ x : Resume,
        ({ applyResumeUpdate u x with
            updated_at := now } : Resume).is_master = x.is_master := by
      intro x
      show (applyResumeUpdate u x).is_master = x.is_master
      rw [applyResumeUpdate_is_master]
    have hids := map_updateFirst (l := s.rows)
      (p := fun x => x.id == rid)
      (f := fun x => { applyResumeUpdate u x with
        updated_at := now }) (fun x => x.id) hstep_id
    refine ⟨⟨by simpa [hids] using hnd, ?_⟩, ?_⟩
    · intro i hi
      rw [hids] at hi
      exact hlt i hi
    · have := countP_updateFirst (p := fun x => x.id == rid)
        (f := fun x => { applyResumeUpdate u x with
          updated_at := now }) (fun x => x.is_master) (l := s.rows) hstep_m
      simpa [masterCount, this] using h1

theorem applyOp_inv {s : ResumeStore} (op : ResumeOp)
    (hwf : StoreWF s) (h1 : masterCount s.rows ≤ 1) :
    StoreWF (applyOp s op) ∧ masterCount (applyOp s op).rows ≤ 1 := by
  cases op with
  | create r now => exact create_resume_inv hwf h1
  | upload fc ct n? fn im lr now => exact upload_resume_inv hwf h1
  | setMaster rid now =>
    obtain ⟨h1', h2', _, _, _⟩ := set_master_resume_inv s rid now hwf h1
    exact ⟨h1', h2'⟩
  | unsetMaster rid now => exact unset_master_resume_inv hwf h1
  | update rid u now => exact update_resume_inv hwf h1

theorem runOps_inv {s : ResumeStore} (ops : List ResumeOp)
    (hwf : StoreWF s) (h1 : masterCount s.rows ≤ 1) :
    StoreWF (runOps s ops) ∧ masterCount (runOps s ops).rows ≤ 1 := by
  induction ops generalizing s with
  | nil => exact ⟨hwf, h1⟩
  | cons op ops ih =>
    obtain ⟨hwf', h1'⟩ := applyOp_inv op hwf h1
    exact ih hwf' h1'

/-! ### Facts about `applyCommunicationUpdate` -/

theorem applyCommunicationUpdate_application_id (u : CommunicationUpdate)
    (c : Communication) :
    (applyCommunicationUpdate u c).application_id = c.application_id := by
  unfold applyCommunicationUpdate
  cases u.type <;> cases u.message <;> cases u.sender_name <;>
    cases u.sender_email <;> cases u.response_date <;> rfl

theorem applyCommunicationUpdate_type_of_some {u : CommunicationUpdate}
    (c : Communication) {T : CommType} (h : u.type = some T) :
    (applyCommunicationUpdate u c).type = T := by
  unfold applyCommunicationUpdate
  rw [h]
  cases u.message <;> cases u.sender_name <;> cases u.sender_email <;>
    cases u.response_date <;> rfl

/-! ### The claims -/

/-- Claim C1: creating a communication of type `T` for an application
with current status `S` updates the status to the mapped target
(Interview Invite→Interview, Rejection→Rejected, Offer→Offer) iff the
target is Rejected or its rank strictly exceeds the rank of `S` under
Rejected=0, Applied=1, Interview=2, Offer=3, bumping `updated_at` when
it applies; for the unmapped types (Note, Follow-up) and whenever the
condition fails, the applications table is left unchanged. -/
theorem C1_status_derivation_on_create
    (s : AppState) (c : CommunicationCreate) (app : Application)
    (newId now : Nat)
    (happ : s.applications.find? (fun a => a.id == c.application_id) = some app) :
    (∀ target, COMMUNICATION_TO_STATUS c.type = some target →
      ((target = .rejected ∨
          status_priority target > status_priority app.status) →
        (create_communication c newId now s).1.applications.find?
            (fun a => a.id == c.application_id) =
          some { app with status := target, updated_at := now }) ∧
      (¬(target = .rejected ∨
          status_priority target > status_priority app.status) →
        (create_communication c newId now s).1.applications =
          s.applications)) ∧
    (COMMUNICATION_TO_STATUS c.type = none →
      (create_communication c newId now s).1.applications =
        s.applications) := by
  constructor
  · intro target htarget
    constructor
    · intro hcond
      simp only [create_communication, happ]
      simp only [update_application_status, happ, htarget]
      rw [if_pos hcond]
      have hp := List.find?_some happ
      exact find?_updateFirst happ hp
    · intro hcond
      simp only [create_communication, happ]
      simp only [update_application_status, happ, htarget]
      rw [if_neg hcond]
  · intro htarget
    simp only [create_communication, happ]
    simp only [update_application_status, happ, htarget]

/-- Witness for C1: store with one application (id 1, status Applied);
an Interview Invite lifts it to Interview with `updated_at` bumped to
the request time. -/
theorem C1_status_derivation_on_create_witness :
    (create_communication
        ⟨1, .interviewInvite, none, none, none, none⟩ 7 100
        ⟨[⟨1, "Acme", "Dev", .applied, none, none, 0⟩], []⟩).1.applications.find?
        (fun a => a.id == 1) =
      some ⟨1, "Acme", "Dev", .interview, none, none, 100⟩ :=
  ((C1_status_derivation_on_create
      ⟨[⟨1, "Acme", "Dev", .applied, none, none, 0⟩], []⟩
      ⟨1, .interviewInvite, none, none, none, none⟩
      ⟨1, "Acme", "Dev", .applied, none, none, 0⟩ 7 100 rfl).1
    .interview rfl).1 (Or.inr (by decide))

/-- Claim C4: a PATCH on a communication re-triggers status derivation
only when the payload contains `type`; the re-derivation runs the new
type against the applications table as it is at update time; a payload
without `type` leaves the applications table untouched. -/
theorem C4_update_retrigger_iff_type_present
    (s : AppState) (cid now : Nat) (u : CommunicationUpdate)
    (c : Communication)
    (hfind : s.communications.find? (fun x => x.id == cid) = some c) :
    (u.type = none →
      (update_communication cid u now s).1.applications = s.applications) ∧
    (∀ T, u.type = some T →
      (update_communication cid u now s).1.applications =
        update_application_status c.application_id T now s.applications) := by
  constructor
  · intro htype
    simp only [update_communication, hfind, htype, Option.isSome_none,
      Bool.false_eq_true, if_false]
  · intro T htype
    simp only [update_communication, hfind, htype, Option.isSome_some, if_true]
    rw [applyCommunicationUpdate_application_id,
      applyCommunicationUpdate_type_of_some c htype]

/-- Witness for C4: a payload without `type` leaves the single
application untouched; a payload setting `type` re-derives against the
current table. -/
theorem C4_update_retrigger_iff_type_present_witness :
    ((update_communication 5 ⟨none, none, none, none, none⟩ 9
        ⟨[⟨1, "Acme", "Dev", .interview, none, none, 0⟩],
         [⟨5, 1, .note, none, none, none, none, 0⟩]⟩).1.applications =
      ([⟨1, "Acme", "Dev", .interview, none, none, 0⟩] : List Application)) ∧
    ((update_communication 5 ⟨some .rejection, none, none, none, none⟩ 9
        ⟨[⟨1, "Acme", "Dev", .interview, none, none, 0⟩],
         [⟨5, 1, .note, none, none, none, none, 0⟩]⟩).1.applications =
      update_application_status 1 .rejection 9
        [⟨1, "Acme", "Dev", .interview, none, none, 0⟩]) :=
  ⟨(C4_update_retrigger_iff_type_present
      ⟨[⟨1, "Acme", "Dev", .interview, none, none, 0⟩],
       [⟨5, 1, .note, none, none, none, none, 0⟩]⟩ 5 9
      ⟨none, none, none, none, none⟩
      ⟨5, 1, .note, none, none, none, none, 0⟩ rfl).1 rfl,
   (C4_update_retrigger_iff_type_present
      ⟨[⟨1, "Acme", "Dev", .interview, none, none, 0⟩],
       [⟨5, 1, .note, none, none, none, none, 0⟩]⟩ 5 9
      ⟨some .rejection, none, none, none, none⟩
      ⟨5, 1, .note, none, none, none, none, 0⟩ rfl).2 .rejection rfl⟩

/-- Claim C9: creating a communication whose `application_id` matches
no application fails with 404 and writes nothing; when the application
exists, creation succeeds with 201 and appends exactly the new row. -/
theorem C9_create_communication_existence_check
    (s : AppState) (c : CommunicationCreate) (newId now : Nat) :
    (s.applications.find? (fun a => a.id == c.application_id) = none →
      create_communication c newId now s = (s, .error 404)) ∧
    (∀ app, s.applications.find? (fun a => a.id == c.application_id) = some app →
      ∃ comm, (create_communication c newId now s).2 = .ok (201, comm) ∧
        (create_communication c newId now s).1.communications =
          s.communications ++ [comm]) := by
  constructor
  · intro h
    simp [create_communication, h]
  · intro app h
    refine ⟨⟨newId, c.application_id, c.type, c.message, c.sender_name,
      c.sender_email, c.response_date,
      match c.response_date with | some d => d | none => now⟩, ?_, ?_⟩
    · simp only [create_communication, h]
    · simp only [create_communication, h]

/-- Witness for C9: against an empty store creation 404s and leaves the
state unchanged; against a store holding application 1 it succeeds. -/
theorem C9_create_communication_existence_check_witness :
    (create_communication ⟨1, .offer, none, none, none, none⟩ 3 50
        ⟨[], []⟩ = (⟨[], []⟩, .error 404)) ∧
    (∃ comm, (create_communication ⟨1, .offer, none, none, none, none⟩ 3 50
        ⟨[⟨1, "Acme", "Dev", .applied, none, none, 0⟩], []⟩).2 =
          .ok (201, comm) ∧
      (create_communication ⟨1, .offer, none, none, none, none⟩ 3 50
        ⟨[⟨1, "Acme", "Dev", .applied, none, none, 0⟩], []⟩).1.communications =
          ([] : List Communication) ++ [comm]) :=
  ⟨(C9_create_communication_existence_check ⟨[], []⟩
      ⟨1, .offer, none, none, none, none⟩ 3 50).1 rfl,
   (C9_create_communication_existence_check
      ⟨[⟨1, "Acme", "Dev", .applied, none, none, 0⟩], []⟩
      ⟨1, .offer, none, none, none, none⟩ 3 50).2
      ⟨1, "Acme", "Dev", .applied, none, none, 0⟩ rfl⟩

/-- Claim C10: deleting a communication removes only that row and never
invokes status derivation: the applications table — statuses,
`updated_at`, every field — is exactly as before, even if the deleted
communication is the one whose creation set the current status. -/
theorem C10_delete_frame (s : AppState) (cid : Nat) (c : Communication)
    (hfind : s.communications.find? (fun x => x.id == cid) = some c) :
    (delete_communication cid s).1.applications = s.applications ∧
    (delete_communication cid s).1.communications =
      eraseFirst (fun x => x.id == cid) s.communications ∧
    (delete_communication cid s).1.communications.length + 1 =
      s.communications.length ∧
    ∀ x ∈ (delete_communication cid s).1.communications,
      x ∈ s.communications := by
  simp only [delete_communication, hfind]
  exact ⟨by trivial, by trivial, length_eraseFirst_of_find? hfind,
    fun x hx => mem_of_mem_eraseFirst hx⟩

/-- Witness for C10: deleting the only Rejection communication leaves
the application Rejected and untouched. -/
theorem C10_delete_frame_witness :
    (delete_communication 5
        ⟨[⟨1, "Acme", "Dev", .rejected, none, none, 4⟩],
         [⟨5, 1, .rejection, none, none, none, none, 4⟩]⟩).1.applications =
      ([⟨1, "Acme", "Dev", .rejected, none, none, 4⟩] : List Application) :=
  (C10_delete_frame
    ⟨[⟨1, "Acme", "Dev", .rejected, none, none, 4⟩],
     [⟨5, 1, .rejection, none, none, none, none, 4⟩]⟩ 5
    ⟨5, 1, .rejection, none, none, none, none, 4⟩ rfl).1

/-- Claim C2: from a well-formed store (distinct primary keys below the
autoincrement counter) holding at most one master resume, any sequence
of resume operations — create, upload, set-master, unset-master,
update — leaves at most one resume with `is_master = true`; set-master
on a present id applied twice in a row leaves exactly one master. -/
theorem C2_single_master_invariant (s : ResumeStore)
    (hwf : StoreWF s) (h1 : masterCount s.rows ≤ 1) :
    (∀ ops : List ResumeOp, masterCount (runOps s ops).rows ≤ 1) ∧
    (∀ rid t1 t2, rid ∈ s.rows.map (fun r => r.id) →
      masterCount (applyOp (applyOp s (.setMaster rid t1))
        (.setMaster rid t2)).rows = 1) := by
  constructor
  · intro ops
    exact (runOps_inv ops hwf h1).2
  · intro rid t1 t2 hmem
    obtain ⟨hwf1, h11, _, hids1, _⟩ :=
      set_master_resume_inv s rid t1 hwf h1
    have hmem1 : rid ∈ (applyOp s (.setMaster rid t1)).rows.map
        (fun r => r.id) := by
      show rid ∈ (set_master_resume rid t1 s).1.rows.map (fun r => r.id)
      rw [hids1]
      exact hmem
    obtain ⟨_, _, hone2, _, _⟩ :=
      set_master_resume_inv (set_master_resume rid t1 s).1 rid t2 hwf1 h11
    exact hone2 hmem1

/-- Witness for C2: one non-master resume (id 1); a set-master followed
by a master-creating create keeps the count at one, and set-master
twice in a row on id 1 leaves exactly one master. -/
theorem C2_single_master_invariant_witness :
    masterCount (runOps
        ⟨[⟨1, "CV", false, none, [("a", .str "b")], [], none, none, none, 0⟩], 2⟩
        [.setMaster 1 5,
         .create ⟨"M", true, none, [("a", .str "b")], []⟩ 6]).rows ≤ 1 ∧
    masterCount (applyOp (applyOp
        ⟨[⟨1, "CV", false, none, [("a", .str "b")], [], none, none, none, 0⟩], 2⟩
        (.setMaster 1 5)) (.setMaster 1 6)).rows = 1 :=
  ⟨(C2_single_master_invariant
      ⟨[⟨1, "CV", false, none, [("a", .str "b")], [], none, none, none, 0⟩], 2⟩
      ⟨by decide, by decide⟩ (by decide)).1
      [.setMaster 1 5, .create ⟨"M", true, none, [("a", .str "b")], []⟩ 6],
   (C2_single_master_invariant
      ⟨[⟨1, "CV", false, none, [("a", .str "b")], [], none, none, none, 0⟩], 2⟩
      ⟨by decide, by decide⟩ (by decide)).2 1 5 6 (by decide)⟩

/-! ### Facts about `applyResumeUpdate` fields touched by C3 -/

theorem applyResumeUpdate_version_history (u : ResumeUpdate) (r : Resume) :
    (applyResumeUpdate u r).version_history = r.version_history := by
  unfold applyResumeUpdate
  cases u.name <;> cases u.content <;> rfl

theorem applyResumeUpdate_content_of_some {u : ResumeUpdate}
    (r : Resume) {nc : Content} (h : u.content = some nc) :
    (applyResumeUpdate u r).content = nc := by
  unfold applyResumeUpdate
  rw [h]

/-- Claim C3, evaluated at its failing input (a code bug): resume 1
has non-empty content `{"a": "old"}` and empty `version_history`, and
receives the content-changing PATCH `{"content": {"a": "new"}}` at
time 9. The claim — and the route's own in-memory `recordVersion`
append, computed in the second conjunct — would give `version_history`
the single pre-image entry `{9, {"a": "old"}}`, but the program's
persisted and returned row keeps `version_history = []`: the in-place
append on the untracked plain JSON column is dropped at `db.commit()`
and the appended entry is discarded again by `db.refresh`. -/
theorem C3_version_history_not_persisted :
    (∃ r', (update_resume 1 ⟨none, some [("a", .str "new")]⟩ 9
        ⟨[⟨1, "CV", false, none, [("a", .str "old")], [], none, none, none, 0⟩],
          2⟩).1.rows.find? (fun x => x.id == 1) = some r' ∧
      r'.content = [("a", .str "new")] ∧
      r'.version_history = ([] : List VersionEntry)) ∧
    (recordVersion
        ⟨1, "CV", false, none, [("a", .str "old")], [], none, none, none, 0⟩
        9).version_history = [⟨9, [("a", .str "old")]⟩] :=
  ⟨⟨_, rfl, rfl, rfl⟩, rfl⟩

/-- Claim C5: apply-template on a resume whose `latex_content` is null
or empty fails with 400 and leaves the resume store unchanged (the
error is raised before any row is created). -/
theorem C5_apply_template_requires_latex (s : ResumeStore)
    (rid : Nat) (template_id : String) (blendResult : Option String)
    (compileResult : Option Bytes) (draws : Nat → Fin 10) (now : Nat)
    (r : Resume)
    (hfind : s.rows.find? (fun x => x.id == rid) = some r)
    (hlatex : strTruthy r.latex_content = false) :
    apply_template rid template_id blendResult compileResult draws now s =
      (s, .error 400) := by
  simp only [apply_template, hfind, hlatex, Bool.not_false, if_true]

/-- Witness for C5: a resume without LaTeX content makes apply-template
answer 400 with the store untouched. -/
theorem C5_apply_template_requires_latex_witness :
    apply_template 1 "template-1" (some "x") none (fun _ => ⟨0, by omega⟩) 9
      ⟨[⟨1, "CV", false, none, [("a", .str "b")], [], none, none, none, 0⟩], 2⟩ =
    (⟨[⟨1, "CV", false, none, [("a", .str "b")], [], none, none, none, 0⟩], 2⟩,
      .error 400) :=
  C5_apply_template_requires_latex
    ⟨[⟨1, "CV", false, none, [("a", .str "b")], [], none, none, none, 0⟩], 2⟩
    1 "template-1" (some "x") none (fun _ => ⟨0, by omega⟩) 9
    ⟨1, "CV", false, none, [("a", .str "b")], [], none, none, none, 0⟩
    rfl rfl

/-! ### The random suffix -/

theorem generate_random_suffix_length (n : Nat) (draws : Nat → Fin 10) :
    (generate_random_suffix n draws).length = n := by
  show ((List.range n).map
    (fun i => string_digits.toList.getD (draws i).val '0')).length = n
  rw [List.length_map, List.length_range]

theorem generate_random_suffix_digits (n : Nat) (draws : Nat → Fin 10) :
    ∀ ch ∈ (generate_random_suffix n draws).toList, ch.isDigit = true := by
  intro ch hch
  simp only [generate_random_suffix, String.toList, List.mem_map] at hch
  obtain ⟨i, _, rfl⟩ := hch
  have hdig : ∀ k : Fin 10,
      (string_digits.toList.getD k.val '0').isDigit = true := by decide
  exact hdig (draws i)

/-- Claim C6: a successful apply-template call inserts exactly one new
resume row: not a master, `master_resume_id` pointing at the original,
content copied from the original, name `original-XYZ` with a
three-decimal-digit suffix; when external PDF compilation fails the
operation still succeeds with `file_data = None`. -/
theorem C6_apply_template_success_shape (s : ResumeStore)
    (rid : Nat) (template_id : String) (blended : String)
    (compileResult : Option Bytes) (draws : Nat → Fin 10) (now : Nat)
    (original : Resume)
    (hfind : s.rows.find? (fun x => x.id == rid) = some original)
    (hlatex : strTruthy original.latex_content = true)
    (htid : template_id ∈ get_available_templates.map Prod.fst)
    (hblend : blended ≠ "") :
    ∃ new_resume,
      apply_template rid template_id (some blended) compileResult draws now s =
        (⟨s.rows ++ [new_resume], s.nextId + 1⟩, .ok new_resume) ∧
      new_resume.is_master = false ∧
      new_resume.master_resume_id = some original.id ∧
      new_resume.content = original.content ∧
      new_resume.name =
        original.name ++ "-" ++ generate_random_suffix 3 draws ∧
      (generate_random_suffix 3 draws).length = 3 ∧
      (∀ ch ∈ (generate_random_suffix 3 draws).toList, ch.isDigit = true) ∧
      (compileResult = none → new_resume.file_data = none) := by
  have hbl : (blended == "") = false := by simpa using hblend
  unfold apply_template
  simp only [hfind]
  simp only [hlatex, Bool.not_true, Bool.false_eq_true, if_false]
  rw [if_neg (not_not_intro htid)]
  simp only [hbl, Bool.false_eq_true, if_false]
  refine ⟨_, rfl, rfl, rfl, rfl, rfl,
    generate_random_suffix_length 3 draws,
    generate_random_suffix_digits 3 draws, ?_⟩
  intro hc
  subst hc
  rfl

/-- Witness for C6: applying template-1 to a resume that has LaTeX,
with a blended result and a failed compilation. -/
theorem C6_apply_template_success_shape_witness :
    ∃ new_resume,
      apply_template 1 "template-1" (some "blended latex") none
          (fun _ => ⟨3, by omega⟩) 9
          ⟨[⟨1, "CV", false, none, [("a", .str "b")], [], none, none,
              some "latex", 0⟩], 2⟩ =
        (⟨[⟨1, "CV", false, none, [("a", .str "b")], [], none, none,
            some "latex", 0⟩] ++ [new_resume], 2 + 1⟩, .ok new_resume) ∧
      new_resume.is_master = false ∧
      new_resume.master_resume_id = some 1 ∧
      new_resume.content = [("a", .str "b")] ∧
      new_resume.name =
        "CV" ++ "-" ++ generate_random_suffix 3 (fun _ => ⟨3, by omega⟩) ∧
      (generate_random_suffix 3 (fun _ => ⟨3, by omega⟩)).length = 3 ∧
      (∀ ch ∈ (generate_random_suffix 3 (fun _ => ⟨3, by omega⟩)).toList,
        ch.isDigit = true) ∧
      ((none : Option Bytes) = none → new_resume.file_data = none) :=
  C6_apply_template_success_shape
    ⟨[⟨1, "CV", false, none, [("a", .str "b")], [], none, none,
        some "latex", 0⟩], 2⟩
    1 "template-1" "blended latex" none (fun _ => ⟨3, by omega⟩) 9
    ⟨1, "CV", false, none, [("a", .str "b")], [], none, none,
      some "latex", 0⟩
    rfl rfl (by decide) (by decide)

/-! ### The compilation service loop -/

theorem tryServices_eq_findSome? (outcome : ServiceName → ServiceOutcome)
    (l : List ServiceName) :
    tryServices outcome l =
      l.findSome? (fun svc => serviceSuccess (outcome svc)) := by
  induction l with
  | nil => rfl
  | cons svc rest ih =>
    cases h : outcome svc with
    | raises => simp [tryServices, h, List.findSome?_cons, serviceSuccess, ih]
    | returns result =>
      cases result with
      | none => simp [tryServices, h, List.findSome?_cons, serviceSuccess, ih]
      | some b =>
        by_cases hb : b = []
        · subst hb
          simp [tryServices, h, List.findSome?_cons, serviceSuccess, ih]
        · simp [tryServices, h, hb, List.findSome?_cons, serviceSuccess]

/-- Claim C7: `compile_latex_to_pdf` never raises (it is total and
catches each service's exception), consults its services once each in
the fixed priority order — returning the first truthy result — and
returns `None` exactly when every service raised or returned a falsy
result; no service is retried. -/
theorem C7_compile_first_success (outcome : ServiceName → ServiceOutcome) :
    compile_latex_to_pdf outcome =
      services.findSome? (fun svc => serviceSuccess (outcome svc)) ∧
    ((∀ svc ∈ services, serviceSuccess (outcome svc) = none) →
      compile_latex_to_pdf outcome = none) := by
  refine ⟨tryServices_eq_findSome? outcome services, ?_⟩
  intro hall
  show tryServices outcome services = none
  rw [tryServices_eq_findSome? outcome services]
  have h1 := hall .latexonline (by simp [services])
  have h2 := hall .ytotech (by simp [services])
  simp [services, List.findSome?_cons, h1, h2]

/-- Witness for C7: when both services raise, the result is the
spec-side first-success scan and it is `None`. -/
theorem C7_compile_first_success_witness :
    compile_latex_to_pdf (fun _ => .raises) =
      services.findSome?
        (fun svc => serviceSuccess ((fun _ => .raises) svc)) ∧
    compile_latex_to_pdf (fun _ => .raises) = none :=
  ⟨(C7_compile_first_success (fun _ => .raises)).1,
   (C7_compile_first_success (fun _ => .raises)).2
     (fun svc _ => by cases svc <;> rfl)⟩

/-! ### The upload / file round-trip -/

theorem find?_append_of_none {p : α → Bool} {l1 l2 : List α}
    (h : ∀ a ∈ l1, p a = false) : (l1 ++ l2).find? p = l2.find? p := by
  induction l1 with
  | nil => rfl
  | cons a l ih =>
    have ha := h a (List.mem_cons_self a l)
    rw [List.cons_append, List.find?_cons_of_neg _ (by simp [ha])]
    exact ih (fun x hx => h x (List.mem_cons_of_mem a hx))

/-- The successful branch of `upload_resume`: under the allow-list and
size checks the endpoint answers 201 with the inserted row, whose
`file_data` are exactly the uploaded bytes and whose `file_type` is the
declared MIME type — the best-effort LaTeX step never touches those
fields. -/
theorem upload_resume_ok (s : ResumeStore) (fc : Bytes) (ct : String)
    (n? fn : Option String) (im : Bool) (lr : Option String) (now : Nat)
    (hct : ct ∈ valid_types) (hsize : fc.length ≤ 10 * 1024 * 1024) :
    ∃ d, upload_resume fc ct n? fn im lr now s =
      (⟨(if im then clearFirstMaster s.rows else s.rows) ++ [d],
        s.nextId + 1⟩, .ok d) ∧
      d.id = s.nextId ∧ d.is_master = im ∧
      d.file_data = some fc ∧ d.file_type = some ct := by
  unfold upload_resume
  rw [if_neg (not_not_intro hct)]
  rw [if_neg (by omega)]
  refine ⟨_, rfl, ?_, ?_, ?_, ?_⟩ <;>
  · split
    · cases lr with
      | none => rfl
      | some latex =>
        by_cases hl : latex = ""
        · simp [hl]
        · simp [hl, save_latex_to_resume]
    · rfl

/-- Counterexample to C8: a zero-byte PDF upload is accepted (the route
only checks the declared type and the 10 MB ceiling), but
`GET /resumes/{id}/file` on the created resume then returns 404 —
empty `file_data` is falsy in `if not resume.file_data` — instead of
the uploaded bytes, so the round-trip fails as universally stated. -/
theorem C8_roundtrip_counterexample :
    (∃ r, (upload_resume [] "application/pdf" none (some "empty.pdf")
        false none 7 ⟨[], 0⟩).2 = .ok r) ∧
    get_resume_file 0
      (upload_resume [] "application/pdf" none (some "empty.pdf")
        false none 7 ⟨[], 0⟩).1 = .error 404 := by
  constructor
  · exact ⟨_, rfl⟩
  · rfl

/-- Claim C8 as amended: for every accepted upload of a **non-empty**
file, `GET /resumes/{id}/file` on the created resume returns exactly
the uploaded bytes and the MIME type declared at upload time. -/
theorem C8_roundtrip_nonempty (s : ResumeStore) (fc : Bytes) (ct : String)
    (n? fn : Option String) (im : Bool) (lr : Option String) (now : Nat)
    (hwf : StoreWF s)
    (hct : ct ∈ valid_types) (hsize : fc.length ≤ 10 * 1024 * 1024)
    (hne : fc ≠ []) :
    ∃ r, (upload_resume fc ct n? fn im lr now s).2 = .ok r ∧
      r.id = s.nextId ∧
      get_resume_file s.nextId (upload_resume fc ct n? fn im lr now s).1 =
        .ok (fc, ct) := by
  obtain ⟨d, heq, hid, _, hfd, hft⟩ :=
    upload_resume_ok s fc ct n? fn im lr now hct hsize
  refine ⟨d, by rw [heq], hid, ?_⟩
  rw [heq]
  unfold get_resume_file
  have hnone : ∀ a ∈ (if im then clearFirstMaster s.rows else s.rows),
      ((fun r : Resume => r.id == s.nextId) a) = false := by
    intro a ha
    have hmem : a.id ∈ s.rows.map (fun r => r.id) := by
      cases im with
      | false =>
        simp only [Bool.false_eq_true, if_false] at ha
        exact List.mem_map.mpr ⟨a, ha, rfl⟩
      | true =>
        simp only [if_true] at ha
        have : a.id ∈ (clearFirstMaster s.rows).map (fun r => r.id) :=
          List.mem_map.mpr ⟨a, ha, rfl⟩
        rwa [ids_clearFirstMaster] at this
    have hlt := hwf.2 _ hmem
    simp [Nat.ne_of_lt hlt]
  rw [show (⟨(if im then clearFirstMaster s.rows else s.rows) ++ [d],
      s.nextId + 1⟩ : ResumeStore).rows =
      (if im then clearFirstMaster s.rows else s.rows) ++ [d] from rfl]
  rw [find?_append_of_none hnone]
  rw [List.find?_cons_of_pos _ (by simp [hid])]
  have hfe : fc.isEmpty = false := by
    cases fc with
    | nil => exact absurd rfl hne
    | cons a l => rfl
  have hctne : ct ≠ "" := by
    simp only [valid_types, List.mem_cons, List.not_mem_nil, or_false] at hct
    rcases hct with rfl | rfl | rfl | rfl | rfl | rfl <;> decide
  have hctb : (ct == "") = false := by simpa using hctne
  simp only [hfd, hft, bytesTruthy, hfe, Bool.not_false, Bool.not_true,
    Bool.false_eq_true, if_false, hctb, Option.getD_some]

/-- Witness for the amended C8: uploading three bytes of PDF into an
empty store and fetching the file returns the same bytes and type. -/
theorem C8_roundtrip_nonempty_witness :
    ∃ r, (upload_resume [1, 2, 3] "application/pdf" none (some "cv.pdf")
        false none 7 ⟨[], 0⟩).2 = .ok r ∧
      r.id = 0 ∧
      get_resume_file 0
        (upload_resume [1, 2, 3] "application/pdf" none (some "cv.pdf")
          false none 7 ⟨[], 0⟩).1 = .ok ([1, 2, 3], "application/pdf") :=
  C8_roundtrip_nonempty ⟨[], 0⟩ [1, 2, 3] "application/pdf" none
    (some "cv.pdf") false none 7 ⟨by decide, by decide⟩ (by decide)
    (by decide) (by decide)

end JobTracker
